import Mathlib

/-!
Verification of the rpm-qa package-inventory decoders.

This file is a shallow embedding of the two decoders of the repository:

* `src/raw.rs` — the JSON path: a stream of `RawPackage` records (the result of
  JSON deserialization) is normalized into the canonical `Package` model by
  `TryFrom<RawPackage> for Package` and `load_from_reader_impl`.
* `src/parse.rs` — the tab-stream path: a line-oriented protocol with the
  literal tags `@@PKG@@`, `@@FILE@@` and `@@CL@@` is parsed incrementally by
  `load_from_reader_impl`, `parse_pkg_header` and `parse_file_line`.

Rust strings are Lean `String`s; machine integers (`u16`/`u32`/`u64`) are
`Nat` with explicit range checks where the source parses text into them;
fallible code returns `Except Err`.  `HashMap`/`BTreeMap` are modelled as
association lists with overwrite-on-insert, which matches the observable
lookup semantics used by the source.  The tab decoder consumes the stream
after `BufRead::lines` has split it, so its input here is a `List String`
of lines (newlines already stripped), enumerated from 0 exactly as in the
source's `.lines().enumerate()` loop.
-/

/-! ## String primitives (structural stand-ins for the Rust string operations) -/

/-- Splits a string at every occurrence of the character `c`, keeping empty
fields, exactly like Rust's `str::split(c)`: `n` separators yield `n + 1`
fields and the empty string yields one empty field. -/
def splitCharAux (c : Char) : List Char → List Char → List String
  | [], acc => [String.mk acc.reverse]
  | x :: xs, acc =>
    if x = c then String.mk acc.reverse :: splitCharAux c xs []
    else splitCharAux c xs (x :: acc)

/-- Rust `str::split(c).collect::<Vec<_>>()`. -/
def splitChar (c : Char) (s : String) : List String :=
  splitCharAux c s.data []

/-- Rust `str::starts_with(tag)`. -/
def strStarts (s tag : String) : Bool := tag.data.isPrefixOf s.data

/-- Rust `str::strip_prefix(tag)`: `some` of the remainder when `s` begins
with `tag`, otherwise `none`. -/
def dropTag (tag s : String) : Option String :=
  if strStarts s tag then some (String.mk (s.data.drop tag.data.length)) else none

/-- Digit-by-digit accumulation used by `parseNatBase`. -/
def parseNatCore : List Char → Nat → Option Nat
  | [], acc => some acc
  | c :: cs, acc =>
    if c.isDigit then parseNatCore cs (acc * 10 + (c.toNat - 48)) else none

/-- Rust unsigned `str::parse` before the width check: an optional leading
`+`, then at least one ASCII digit. -/
def parseNatBase (s : String) : Option Nat :=
  match s.data with
  | [] => none
  | '+' :: rest => if rest.isEmpty then none else parseNatCore rest 0
  | cs => parseNatCore cs 0

/-- Rust `str::parse::<uN>()`: digits plus the width bound `bound = 2 ^ N`. -/
def parseNatLt (bound : Nat) (s : String) : Option Nat :=
  match parseNatBase s with
  | some n => if n < bound then some n else none
  | none => none

/-- Rust `str::parse::<u64>()`. -/
def parseU64 (s : String) : Option Nat := parseNatLt (2 ^ 64) s

/-- Rust `str::parse::<u32>()`. -/
def parseU32 (s : String) : Option Nat := parseNatLt (2 ^ 32) s

/-- Rust `str::parse::<u16>()`. -/
def parseU16 (s : String) : Option Nat := parseNatLt (2 ^ 16) s

/-- `camino::Utf8Path::new(d).join(b)`: an absolute `b` replaces the path,
otherwise `b` is appended to `d` with a separator inserted unless `d`
already ends in one. -/
def pathJoin (d b : String) : String :=
  if strStarts b "/" then b
  else if d = "" then b
  else if d.data.getLast? = some '/' then d ++ b
  else d ++ "/" ++ b

/-! ## Association-list maps (the observable semantics of `HashMap`/`BTreeMap`) -/

/-- Insert with overwrite: the semantics of `HashMap::insert` /
`BTreeMap::insert` as observed through lookups. -/
def insertAssoc {α : Type} : List (String × α) → String → α → List (String × α)
  | [], k, v => [(k, v)]
  | (k', v') :: rest, k, v =>
    if k' = k then (k, v) :: rest else (k', v') :: insertAssoc rest k v

/-- Lookup: the semantics of `map.get(k)` / indexing. -/
def findAssoc {α : Type} : List (String × α) → String → Option α
  | [], _ => none
  | (k', v') :: rest, k => if k' = k then some v' else findAssoc rest k

/-! ## Data model (`src/lib.rs`) -/

/-- `DigestAlgorithm` from `lib.rs`: closed tagged variant over fixed codes. -/
inductive DigestAlgorithm where
  | Md5
  | Sha1
  | RipeMd160
  | Md2
  | Tiger192
  | Haval5160
  | Sha256
  | Sha384
  | Sha512
  | Sha224
  | Sha3_256
  | Sha3_512
deriving DecidableEq

/-- The numeric discriminants of `DigestAlgorithm` (Rust `as u32`). -/
def DigestAlgorithm.toCode : DigestAlgorithm → Nat
  | .Md5 => 1
  | .Sha1 => 2
  | .RipeMd160 => 3
  | .Md2 => 5
  | .Tiger192 => 6
  | .Haval5160 => 7
  | .Sha256 => 8
  | .Sha384 => 9
  | .Sha512 => 10
  | .Sha224 => 11
  | .Sha3_256 => 12
  | .Sha3_512 => 14

/-- `TryFrom<u32> for DigestAlgorithm` (identical in `raw.rs` and `parse.rs`):
the sequential guard chain comparing against each variant's discriminant. -/
def DigestAlgorithm.tryFrom (v : Nat) : Option DigestAlgorithm :=
  if v = DigestAlgorithm.Md5.toCode then some .Md5
  else if v = DigestAlgorithm.Sha1.toCode then some .Sha1
  else if v = DigestAlgorithm.RipeMd160.toCode then some .RipeMd160
  else if v = DigestAlgorithm.Md2.toCode then some .Md2
  else if v = DigestAlgorithm.Tiger192.toCode then some .Tiger192
  else if v = DigestAlgorithm.Haval5160.toCode then some .Haval5160
  else if v = DigestAlgorithm.Sha256.toCode then some .Sha256
  else if v = DigestAlgorithm.Sha384.toCode then some .Sha384
  else if v = DigestAlgorithm.Sha512.toCode then some .Sha512
  else if v = DigestAlgorithm.Sha224.toCode then some .Sha224
  else if v = DigestAlgorithm.Sha3_256.toCode then some .Sha3_256
  else if v = DigestAlgorithm.Sha3_512.toCode then some .Sha3_512
  else none

/-- `FileDigest` from `lib.rs`. -/
structure FileDigest where
  algorithm : DigestAlgorithm
  hex : String
deriving DecidableEq

/-- `FileFlags` from `lib.rs`: a raw 32-bit value (a `Nat` here). -/
structure FileFlags where
  raw : Nat
deriving DecidableEq

/-- `FileFlags::from_raw`. -/
def FileFlags.fromRaw (value : Nat) : FileFlags := ⟨value⟩

/-- `FileInfo` from `lib.rs` (the canonical model used by the JSON path). -/
structure FileInfo where
  size : Nat
  mode : Nat
  mtime : Nat
  digest : Option FileDigest
  flags : FileFlags
  user : String
  group : String
  linkto : Option String
deriving DecidableEq

/-- `Files = BTreeMap<Utf8PathBuf, FileInfo>` as an association list. -/
abbrev Files : Type := List (String × FileInfo)

/-- `Package` from `lib.rs` (the canonical model used by the JSON path). -/
structure Package where
  name : String
  version : String
  release : String
  epoch : Option Nat
  arch : String
  license : String
  size : Nat
  buildtime : Nat
  installtime : Nat
  sourcerpm : Option String
  files : Files
deriving DecidableEq

/-- `Packages = HashMap<String, Package>` as an association list. -/
abbrev Packages : Type := List (String × Package)

/-! ## Error model

One constructor per `bail!`/`anyhow!` site of the source, carrying exactly
the values interpolated into that site's message.  `ctxPkgHeader` and
`ctxFileLine` model the `with_context` wrappers of the tab decoder. -/

/-- Structured error type covering every failure site of both decoders. -/
inductive Err where
  | unknownDigestAlgorithm (name : String) (code : Nat)
  | missingDirindex (name : String) (i : Nat)
  | dirindexOutOfBounds (name : String) (dirIdx : Nat) (i : Nat)
  | missingFilesize (name path : String) (i : Nat)
  | missingFilemode (name path : String) (i : Nat)
  | missingFilemtime (name path : String) (i : Nat)
  | missingFileflags (name path : String) (i : Nat)
  | missingFileusername (name path : String) (i : Nat)
  | missingFilegroupname (name path : String) (i : Nat)
  | missingFiledigest (name path : String) (i : Nat)
  | missingFilelinkto (name path : String) (i : Nat)
  | missingArch (name : String)
  | pkgFieldCount (lineNo got : Nat)
  | fileFieldCount (lineNo : Nat) (name : String) (got : Nat)
  | fileBeforePkg (lineNo : Nat)
  | clBeforePkg (lineNo : Nat)
  | invalidChangelogTime (lineNo : Nat) (name : String)
  | unexpectedLineFormat (lineNo : Nat) (lineText : String)
  | invalidEpoch (name val : String)
  | tabMissingArch (name : String)
  | invalidSize (name : String)
  | invalidBuildtime (name : String)
  | invalidInstalltime (name : String)
  | invalidFiledigestalgo (name val : String)
  | tabUnknownDigestAlgorithm (name : String) (code : Nat)
  | invalidFilesize (path : String)
  | invalidFilemode (path : String)
  | invalidFilemtime (path : String)
  | invalidFileflags (path : String)
  | ctxPkgHeader (lineNo : Nat) (e : Err)
  | ctxFileLine (lineNo : Nat) (name : String) (e : Err)
deriving DecidableEq

/-- Decidable equality of decode results, so concrete runs of the decoders
can be checked by `decide`. -/
instance {ε α : Type} [DecidableEq ε] [DecidableEq α] : DecidableEq (Except ε α) := fun a b =>
  match a, b with
  | .error x, .error y =>
    if h : x = y then .isTrue (congrArg Except.error h)
    else .isFalse fun hh => h (Except.error.inj hh)
  | .ok x, .ok y =>
    if h : x = y then .isTrue (congrArg Except.ok h)
    else .isFalse fun hh => h (Except.ok.inj hh)
  | .error _, .ok _ => .isFalse fun hh => Except.noConfusion hh
  | .ok _, .error _ => .isFalse fun hh => Except.noConfusion hh

/-! ## JSON path (`src/raw.rs`) -/

/-- `RawPackage` from `raw.rs`: raw package data as deserialized from JSON,
after serde's one-or-many coercion has produced plain vectors and the
`(none)` sentinel filter has produced `sourcerpm : Option`. -/
structure RawPackage where
  name : String
  version : String
  release : String
  epoch : Option Nat
  arch : Option String
  license : String
  size : Nat
  buildtime : Nat
  installtime : Nat
  sourcerpm : Option String
  basenames : List String
  dirnames : List String
  dirindexes : List Nat
  filesizes : List Nat
  filemodes : List Nat
  filemtimes : List Nat
  filedigests : List String
  fileflags : List Nat
  fileusername : List String
  filegroupname : List String
  filelinktos : List String
  filedigestalgo : Option Nat
deriving DecidableEq

/-- Resolution of `raw.filedigestalgo` at the top of
`TryFrom<RawPackage> for Package` (raw.rs lines 106-112). -/
def resolveDigestAlgo (raw : RawPackage) : Except Err (Option DigestAlgorithm) :=
  match raw.filedigestalgo with
  | none => .ok none
  | some v =>
    match DigestAlgorithm.tryFrom v with
    | some a => .ok (some a)
    | none => .error (.unknownDigestAlgorithm raw.name v)

/-- The body of the per-file loop of `TryFrom<RawPackage> for Package`
(raw.rs lines 116-205), producing the path and `FileInfo` for index `i`. -/
def normFile (raw : RawPackage) (algo : Option DigestAlgorithm) (i : Nat) :
    Except Err (String × FileInfo) :=
  match raw.dirindexes.get? i with
  | none => .error (.missingDirindex raw.name i)
  | some dirIdx =>
  match raw.dirnames.get? dirIdx with
  | none => .error (.dirindexOutOfBounds raw.name dirIdx i)
  | some dirname =>
  let basename := raw.basenames.getD i ""
  let path := pathJoin dirname basename
  match raw.filesizes.get? i with
  | none => .error (.missingFilesize raw.name path i)
  | some size =>
  match raw.filemodes.get? i with
  | none => .error (.missingFilemode raw.name path i)
  | some mode =>
  match raw.filemtimes.get? i with
  | none => .error (.missingFilemtime raw.name path i)
  | some mtime =>
  match raw.fileflags.get? i with
  | none => .error (.missingFileflags raw.name path i)
  | some flags =>
  match raw.fileusername.get? i with
  | none => .error (.missingFileusername raw.name path i)
  | some user =>
  match raw.filegroupname.get? i with
  | none => .error (.missingFilegroupname raw.name path i)
  | some group =>
  match raw.filedigests.get? i with
  | none => .error (.missingFiledigest raw.name path i)
  | some filedigest =>
  match raw.filelinktos.get? i with
  | none => .error (.missingFilelinkto raw.name path i)
  | some linkto =>
  let digest :=
    if filedigest = "" then none
    else algo.map fun algorithm => FileDigest.mk algorithm filedigest
  let linkto := if linkto = "" then none else some linkto
  .ok (path, { size, mode, mtime, digest, flags := FileFlags.fromRaw flags,
               user, group, linkto })

/-- The `for i in 0..raw.basenames.len()` loop of the normalizer, folded
over an explicit list of indices, inserting each file into the map. -/
def buildFilesAux (raw : RawPackage) (algo : Option DigestAlgorithm) :
    List Nat → Files → Except Err Files
  | [], files => .ok files
  | i :: is, files =>
    match normFile raw algo i with
    | .error e => .error e
    | .ok (path, info) => buildFilesAux raw algo is (insertAssoc files path info)

/-- `TryFrom<RawPackage> for Package` (raw.rs lines 102-226): resolve the
digest algorithm, build the file map, require `arch`, assemble the package. -/
def Package.tryFromRaw (raw : RawPackage) : Except Err Package :=
  match resolveDigestAlgo raw with
  | .error e => .error e
  | .ok algo =>
  match buildFilesAux raw algo (List.range raw.basenames.length) [] with
  | .error e => .error e
  | .ok files =>
  match raw.arch with
  | none => .error (.missingArch raw.name)
  | some arch =>
    .ok { name := raw.name, version := raw.version, release := raw.release,
          epoch := raw.epoch, arch, license := raw.license, size := raw.size,
          buildtime := raw.buildtime, installtime := raw.installtime,
          sourcerpm := raw.sourcerpm, files }

/-- The stream loop of `raw.rs::load_from_reader_impl` (lines 228-241) over
the already-deserialized records: skip `gpg-pubkey`, normalize, insert. -/
def rawLoadGo : List RawPackage → Packages → Except Err Packages
  | [], acc => .ok acc
  | raw :: rest, acc =>
    if raw.name = "gpg-pubkey" then rawLoadGo rest acc
    else
      match Package.tryFromRaw raw with
      | .error e => .error e
      | .ok pkg => rawLoadGo rest (insertAssoc acc pkg.name pkg)

/-- `raw.rs::load_from_reader_impl`, with the serde stream's successful
items as input (a failed JSON item fails the whole call before this loop
sees it, so every successful decode factors through this function). -/
def rawLoad (raws : List RawPackage) : Except Err Packages :=
  rawLoadGo raws []

/-! ## Tab-stream path (`src/parse.rs`)

The tab decoder builds a drifted `Package` shape of its own: it has two
extra fields (`digest_algo`, `changelog_times`) and keeps per-file digests
as raw strings instead of materializing `FileDigest` values.  The `Tab`
namespace reproduces that shape exactly as `parse.rs` constructs it. -/

namespace Tab

/-- The per-file record as built by `parse.rs::parse_file_line`: identical
to the canonical `FileInfo` except that `digest` stays a raw string. -/
structure FileInfo where
  size : Nat
  mode : Nat
  mtime : Nat
  digest : Option String
  flags : FileFlags
  user : String
  group : String
  linkto : Option String
deriving DecidableEq

/-- The package record as built by `parse.rs::parse_pkg_header`: the
canonical fields plus `digest_algo` and `changelog_times`. -/
structure Package where
  name : String
  version : String
  release : String
  epoch : Option Nat
  arch : String
  license : String
  size : Nat
  buildtime : Nat
  installtime : Nat
  sourcerpm : Option String
  digest_algo : Option DigestAlgorithm
  changelog_times : List Nat
  files : List (String × FileInfo)
deriving DecidableEq

/-- The tab decoder's package map, keyed by package name. -/
abbrev Packages : Type := List (String × Package)

/-- `parse.rs::parse_optional`: maps the RPM `(none)` sentinel to `none`. -/
def parseOptional (s : String) : Option String :=
  if s = "(none)" then none else some s

/-- `parse.rs::parse_pkg_header` (lines 125-177): builds a partially-filled
package from the 11 header fields (caller has checked the count). -/
def parsePkgHeader (fields : List String) : Except Err Package :=
  let name := fields.getD 0 ""
  let epochR : Except Err (Option Nat) :=
    match parseOptional (fields.getD 3 "") with
    | none => .ok none
    | some s =>
      match parseU32 s with
      | some n => .ok (some n)
      | none => .error (.invalidEpoch name s)
  match epochR with
  | .error e => .error e
  | .ok epoch =>
  match parseOptional (fields.getD 4 "") with
  | none => .error (.tabMissingArch name)
  | some arch =>
  match parseU64 (fields.getD 6 "") with
  | none => .error (.invalidSize name)
  | some size =>
  match parseU64 (fields.getD 7 "") with
  | none => .error (.invalidBuildtime name)
  | some buildtime =>
  match parseU64 (fields.getD 8 "") with
  | none => .error (.invalidInstalltime name)
  | some installtime =>
  let sourcerpm := parseOptional (fields.getD 9 "")
  let algoR : Except Err (Option DigestAlgorithm) :=
    match parseOptional (fields.getD 10 "") with
    | none => .ok none
    | some s =>
      match parseU32 s with
      | none => .error (.invalidFiledigestalgo name s)
      | some v =>
        match DigestAlgorithm.tryFrom v with
        | some a => .ok (some a)
        | none => .error (.tabUnknownDigestAlgorithm name v)
  match algoR with
  | .error e => .error e
  | .ok digest_algo =>
    .ok { name, version := fields.getD 1 "", release := fields.getD 2 "",
          epoch, arch, license := fields.getD 5 "", size, buildtime,
          installtime, sourcerpm, digest_algo, changelog_times := [],
          files := [] }

/-- `parse.rs::parse_file_line` (lines 207-245): builds the path and file
info from the 9 file-row fields (caller has checked the count). -/
def parseFileLine (fields : List String) : Except Err (String × FileInfo) :=
  let path := fields.getD 0 ""
  match parseU64 (fields.getD 1 "") with
  | none => .error (.invalidFilesize path)
  | some size =>
  match parseU16 (fields.getD 2 "") with
  | none => .error (.invalidFilemode path)
  | some mode =>
  match parseU64 (fields.getD 3 "") with
  | none => .error (.invalidFilemtime path)
  | some mtime =>
  let digest := if fields.getD 4 "" = "" then none else some (fields.getD 4 "")
  match parseU32 (fields.getD 5 "") with
  | none => .error (.invalidFileflags path)
  | some flags =>
  let linkto := if fields.getD 8 "" = "" then none else some (fields.getD 8 "")
  .ok (path, { size, mode, mtime, digest, flags := FileFlags.fromRaw flags,
               user := fields.getD 6 "", group := fields.getD 7 "", linkto })

/-- Finalization of the open package (`current_pkg.take()` followed by
`packages.insert(pkg.name.clone(), pkg)`). -/
def finalize (cur : Option Package) (acc : Packages) : Packages :=
  match cur with
  | some pkg => insertAssoc acc pkg.name pkg
  | none => acc

/-- The line loop of `parse.rs::load_from_reader_impl` (lines 37-115), with
its state (`line_no` counter, open-package cursor, gpg-pubkey skip flag,
accumulated map) passed explicitly. -/
def loadGo : List String → Nat → Option Package → Bool → Packages → Except Err Packages
  | [], _, cur, _, acc => .ok (finalize cur acc)
  | line :: rest, lineNo, cur, skip, acc =>
    if line = "" then loadGo rest (lineNo + 1) cur skip acc
    else
      match dropTag "@@PKG@@\t" line with
      | some rs =>
        let acc' := finalize cur acc
        let fields := splitChar '\t' rs
        if fields.length ≠ 11 then
          .error (.pkgFieldCount (lineNo + 1) fields.length)
        else if fields.getD 0 "" = "gpg-pubkey" then
          loadGo rest (lineNo + 1) none true acc'
        else
          match parsePkgHeader fields with
          | .error e => .error (.ctxPkgHeader (lineNo + 1) e)
          | .ok pkg => loadGo rest (lineNo + 1) (some pkg) false acc'
      | none =>
        if skip then loadGo rest (lineNo + 1) cur skip acc
        else
          match dropTag "@@FILE@@\t" line with
          | some rs =>
            match cur with
            | none => .error (.fileBeforePkg (lineNo + 1))
            | some pkg =>
              let fields := splitChar '\t' rs
              if fields.length ≠ 9 then
                .error (.fileFieldCount (lineNo + 1) pkg.name fields.length)
              else
                match parseFileLine fields with
                | .error e => .error (.ctxFileLine (lineNo + 1) pkg.name e)
                | .ok (path, info) =>
                  loadGo rest (lineNo + 1)
                    (some { pkg with files := insertAssoc pkg.files path info })
                    skip acc
          | none =>
            match dropTag "@@CL@@\t" line with
            | some rs =>
              match cur with
              | none => .error (.clBeforePkg (lineNo + 1))
              | some pkg =>
                match parseU64 rs with
                | none => .error (.invalidChangelogTime (lineNo + 1) pkg.name)
                | some t =>
                  loadGo rest (lineNo + 1)
                    (some { pkg with changelog_times := pkg.changelog_times ++ [t] })
                    skip acc
            | none =>
              .error (.unexpectedLineFormat (lineNo + 1) (String.mk (line.data.take 80)))

/-- `parse.rs::load_from_reader_impl` with the stream already split into
lines by `BufRead::lines` (newlines stripped, enumerated from 0). -/
def loadLines (lines : List String) : Except Err Packages :=
  loadGo lines 0 none false []

end Tab

/-! ## Cross-decoder agreement (specification §8, end-to-end scenario)

Modelled from the spec: §8 asks that a minimal record fed through each
decoder yields "structurally equal Package values".  The two decoders build
two different Rust `Package` types (the tab path's carries `digest_algo`
and `changelog_times` and keeps per-file digests as raw strings), so
structural equality is expressed field by field over the canonical model:
every field of the canonical `Package` must coincide, with a tab-side raw
digest string matching the canonical side's materialized hex digest. -/

/-- Modelled from the spec: per-file structural agreement between the tab
decoder's `FileInfo` and the canonical `FileInfo`. -/
def fileAgrees (tf : Tab.FileInfo) (f : FileInfo) : Bool :=
  tf.size == f.size && tf.mode == f.mode && tf.mtime == f.mtime &&
  tf.flags.raw == f.flags.raw && tf.user == f.user && tf.group == f.group &&
  tf.linkto == f.linkto &&
  match tf.digest, f.digest with
  | none, none => true
  | some s, some fd => fd.hex == s
  | _, _ => false

/-- Modelled from the spec: file maps agree entrywise (same paths in the
same order, agreeing records). -/
def filesAgree : List (String × Tab.FileInfo) → Files → Bool
  | [], [] => true
  | (p1, tf) :: r1, (p2, f) :: r2 => p1 == p2 && fileAgrees tf f && filesAgree r1 r2
  | _, _ => false

/-- Modelled from the spec: structural equality of a tab-decoder package and
a canonical package, field by field over the canonical model. -/
def pkgAgrees (t : Tab.Package) (p : Package) : Bool :=
  t.name == p.name && t.version == p.version && t.release == p.release &&
  t.epoch == p.epoch && t.arch == p.arch && t.license == p.license &&
  t.size == p.size && t.buildtime == p.buildtime &&
  t.installtime == p.installtime && t.sourcerpm == p.sourcerpm &&
  filesAgree t.files p.files

/-! ## Concrete inputs used by the claim theorems and witnesses -/

/-- Minimal single-package, single-file JSON record (claim C2). -/
def c2Json : RawPackage :=
  { name := "minpkg", version := "1.0", release := "1", epoch := none,
    arch := some "x86_64", license := "MIT", size := 100, buildtime := 1000,
    installtime := 2000, sourcerpm := none,
    basenames := ["foo"], dirnames := ["/usr/bin/"], dirindexes := [0],
    filesizes := [42], filemodes := [33188], filemtimes := [777],
    filedigests := [""], fileflags := [0], fileusername := ["root"],
    filegroupname := ["root"], filelinktos := [""], filedigestalgo := none }

/-- The same logical content as `c2Json`, encoded as a tab-stream header
line plus file row (claim C2). -/
def c2TabLines : List String :=
  ["@@PKG@@\tminpkg\t1.0\t1\t(none)\tx86_64\tMIT\t100\t1000\t2000\t(none)\t(none)",
   "@@FILE@@\t/usr/bin/foo\t42\t33188\t777\t\t0\troot\troot\t"]

/-- The canonical package produced by the JSON decoder on `c2Json`. -/
def c2JsonPkg : Package :=
  { name := "minpkg", version := "1.0", release := "1", epoch := none,
    arch := "x86_64", license := "MIT", size := 100, buildtime := 1000,
    installtime := 2000, sourcerpm := none,
    files := [("/usr/bin/foo",
      { size := 42, mode := 33188, mtime := 777, digest := none,
        flags := FileFlags.fromRaw 0, user := "root", group := "root",
        linkto := none })] }

/-- The tab-path package produced by the tab decoder on `c2TabLines`. -/
def c2TabPkg : Tab.Package :=
  { name := "minpkg", version := "1.0", release := "1", epoch := none,
    arch := "x86_64", license := "MIT", size := 100, buildtime := 1000,
    installtime := 2000, sourcerpm := none, digest_algo := none,
    changelog_times := [],
    files := [("/usr/bin/foo",
      { size := 42, mode := 33188, mtime := 777, digest := none,
        flags := FileFlags.fromRaw 0, user := "root", group := "root",
        linkto := none })] }

/-- A gpg-pubkey JSON record: no arch, so normalization would fail were the
record not dropped (claim C1 witness). -/
def c1GpgRaw : RawPackage :=
  { name := "gpg-pubkey", version := "1d1e034b", release := "4ae04a74",
    epoch := none, arch := none, license := "pubkey", size := 0,
    buildtime := 0, installtime := 0, sourcerpm := none,
    basenames := [], dirnames := [], dirindexes := [], filesizes := [],
    filemodes := [], filemtimes := [], filedigests := [], fileflags := [],
    fileusername := [], filegroupname := [], filelinktos := [],
    filedigestalgo := none }

/-- A gpg-pubkey tab header followed by a file row, as the external tool
emits for key entries (claim C1 witness). -/
def c1GpgLines : List String :=
  ["@@PKG@@\tgpg-pubkey\t1d1e034b\t4ae04a74\t(none)\t(none)\tpubkey\t0\t0\t0\t(none)\t(none)",
   "@@FILE@@\t/x\t0\t0\t0\t\t0\troot\troot\t"]

/-- A record with a non-empty digest string and a declared algorithm
(claim C4 witness). -/
def c4Raw : RawPackage :=
  { name := "c4pkg", version := "1", release := "1", epoch := none,
    arch := some "x86_64", license := "MIT", size := 0, buildtime := 0,
    installtime := 0, sourcerpm := none,
    basenames := ["f"], dirnames := ["/a/"], dirindexes := [0],
    filesizes := [1], filemodes := [33188], filemtimes := [2],
    filedigests := ["aabb"], fileflags := [0], fileusername := ["root"],
    filegroupname := ["root"], filelinktos := [""], filedigestalgo := some 8 }

/-- The file record the normalizer builds for `c4Raw` at index 0. -/
def c4Info : FileInfo :=
  { size := 1, mode := 33188, mtime := 2,
    digest := some { algorithm := .Sha256, hex := "aabb" },
    flags := FileFlags.fromRaw 0, user := "root", group := "root",
    linkto := none }

/-- A record whose `dirindexes` has no entry for file 0 (claim C5 witness). -/
def c5Raw : RawPackage :=
  { name := "c5pkg", version := "1", release := "1", epoch := none,
    arch := some "x86_64", license := "MIT", size := 0, buildtime := 0,
    installtime := 0, sourcerpm := none,
    basenames := ["f"], dirnames := ["/a/"], dirindexes := [],
    filesizes := [1], filemodes := [1], filemtimes := [1],
    filedigests := [""], fileflags := [0], fileusername := ["root"],
    filegroupname := ["root"], filelinktos := [""], filedigestalgo := none }

/-- Epoch-absent and epoch-zero JSON records (claim C6). -/
def c6RawNone : RawPackage :=
  { name := "epk", version := "1.0", release := "1", epoch := none,
    arch := some "x86_64", license := "MIT", size := 0, buildtime := 0,
    installtime := 0, sourcerpm := none,
    basenames := [], dirnames := [], dirindexes := [], filesizes := [],
    filemodes := [], filemtimes := [], filedigests := [], fileflags := [],
    fileusername := [], filegroupname := [], filelinktos := [],
    filedigestalgo := none }

/-- Like `c6RawNone` but with explicit epoch zero (claim C6). -/
def c6RawZero : RawPackage := { c6RawNone with epoch := some 0 }

/-- A record declaring the out-of-registry digest-algorithm code 13
(claim C8 witness). -/
def c8Raw : RawPackage := { c6RawNone with name := "c8pkg", filedigestalgo := some 13 }

/-- An open tab-path package at end of stream (claim C7 witness). -/
def c7Pkg : Tab.Package :=
  { name := "trailing", version := "1.0", release := "1", epoch := none,
    arch := "x86_64", license := "MIT", size := 0, buildtime := 0,
    installtime := 0, sourcerpm := none, digest_algo := none,
    changelog_times := [], files := [] }

/-- Per-file attribute arrays truncated to the basename count: the part of a
raw record the normalizer's file loop can ever read (claim C9). -/
def truncFiles (raw : RawPackage) : RawPackage :=
  let n := raw.basenames.length
  { raw with
    dirindexes := raw.dirindexes.take n,
    filesizes := raw.filesizes.take n,
    filemodes := raw.filemodes.take n,
    filemtimes := raw.filemtimes.take n,
    filedigests := raw.filedigests.take n,
    fileflags := raw.fileflags.take n,
    fileusername := raw.fileusername.take n,
    filegroupname := raw.filegroupname.take n,
    filelinktos := raw.filelinktos.take n }

/-! ## Helper lemmas -/

theorem mem_insertAssoc {α : Type} (m : List (String × α)) (k : String) (v : α)
    (e : String × α) (he : e ∈ insertAssoc m k v) : e = (k, v) ∨ e ∈ m := by
  induction m with
  | nil => simpa [insertAssoc] using he
  | cons hd tl ih =>
    obtain ⟨k', v'⟩ := hd
    unfold insertAssoc at he
    by_cases hk : k' = k
    · rw [if_pos hk] at he
      rcases List.mem_cons.1 he with h | h
      · exact .inl h
      · exact .inr (List.mem_cons_of_mem _ h)
    · rw [if_neg hk] at he
      rcases List.mem_cons.1 he with h | h
      · exact .inr (h ▸ List.mem_cons_self _ _)
      · rcases ih h with h' | h'
        · exact .inl h'
        · exact .inr (List.mem_cons_of_mem _ h')

theorem findAssoc_insertAssoc_self {α : Type} (m : List (String × α)) (k : String) (v : α) :
    findAssoc (insertAssoc m k v) k = some v := by
  induction m with
  | nil => simp [insertAssoc, findAssoc]
  | cons hd tl ih =>
    obtain ⟨k', v'⟩ := hd
    unfold insertAssoc
    by_cases hk : k' = k
    · rw [if_pos hk]; simp [findAssoc]
    · rw [if_neg hk]; simp [findAssoc, hk, ih]

theorem findAssoc_eq_none {α : Type} (m : List (String × α)) (k : String)
    (h : ∀ e ∈ m, e.1 ≠ k) : findAssoc m k = none := by
  induction m with
  | nil => rfl
  | cons hd tl ih =>
    obtain ⟨k', v'⟩ := hd
    unfold findAssoc
    rw [if_neg (h (k', v') (List.mem_cons_self _ _))]
    exact ih fun e he => h e (List.mem_cons_of_mem _ he)

theorem tryFromRaw_name (raw : RawPackage) (pkg : Package)
    (h : Package.tryFromRaw raw = .ok pkg) : pkg.name = raw.name := by
  unfold Package.tryFromRaw at h
  split at h
  · exact Except.noConfusion h
  · split at h
    · exact Except.noConfusion h
    · split at h
      · exact Except.noConfusion h
      · injection h with h'
        subst h'
        rfl

theorem parsePkgHeader_name (fields : List String) (pkg : Tab.Package)
    (h : Tab.parsePkgHeader fields = .ok pkg) : pkg.name = fields.getD 0 "" := by
  simp only [Tab.parsePkgHeader] at h
  repeat' split at h
  all_goals first
    | exact Except.noConfusion h
    | (injection h with h'; subst h'; rfl)

/-- Claim C2: feeding the minimal single-package, single-file record with
identical logical content (same name, version, file path, size, mode)
through each decoder yields packages under the same map key "minpkg" that
are structurally equal over the canonical model; the tab package's extra
bookkeeping fields are empty. -/
theorem minimal_record_decoders_agree :
    rawLoad [c2Json] = .ok [("minpkg", c2JsonPkg)] ∧
    Tab.loadLines c2TabLines = .ok [("minpkg", c2TabPkg)] ∧
    pkgAgrees c2TabPkg c2JsonPkg = true ∧
    c2TabPkg.changelog_times = [] ∧ c2TabPkg.digest_algo = none := by
  refine ⟨by decide, by decide, by decide, rfl, rfl⟩

/-- Claim C6: the epoch is three-state under both decoders: the JSON path
turns an absent epoch into `none` and literal zero into `some 0`; the tab
path turns the "(none)" sentinel into `none` and the literal "0" into
`some 0`; the two resulting packages compare unequal in their epoch field. -/
theorem epoch_three_state :
    ((rawLoad [c6RawNone]).toOption.bind fun m => (findAssoc m "epk").map (·.epoch))
      = some none ∧
    ((rawLoad [c6RawZero]).toOption.bind fun m => (findAssoc m "epk").map (·.epoch))
      = some (some 0) ∧
    ((Tab.loadLines ["@@PKG@@\tepk\t1.0\t1\t(none)\tx86_64\tMIT\t0\t0\t0\t(none)\t(none)"]).toOption.bind
        fun m => (findAssoc m "epk").map (·.epoch)) = some none ∧
    ((Tab.loadLines ["@@PKG@@\tepk\t1.0\t1\t0\tx86_64\tMIT\t0\t0\t0\t(none)\t(none)"]).toOption.bind
        fun m => (findAssoc m "epk").map (·.epoch)) = some (some 0) ∧
    (none : Option Nat) ≠ some 0 := by
  refine ⟨by decide, by decide, by decide, by decide, by decide⟩

/-- Claim C3, counterexample: a non-empty line matching none of the three
prefixes is *not* fatal when the decoder is in the gpg-pubkey skip state —
this decode succeeds even though "garbage" matches no prefix. -/
theorem skip_state_swallows_garbage_line :
    Tab.loadLines
      ["@@PKG@@\tgpg-pubkey\t1.0\t1\t(none)\t(none)\tpubkey\t0\t0\t0\t(none)\t(none)",
       "garbage"] = .ok [] ∧
    "garbage" ≠ "" ∧
    dropTag "@@PKG@@\t" "garbage" = none ∧
    dropTag "@@FILE@@\t" "garbage" = none ∧
    dropTag "@@CL@@\t" "garbage" = none := by
  refine ⟨by decide, by decide, by decide, by decide, by decide⟩

/-- Claim C3, amended: blank lines are skipped in every state; a non-empty
line matching none of the three prefixes is fatal with the
"unexpected line format" error whenever the decoder is *not* in the
gpg-pubkey skip state; in the skip state every non-package-header line is
silently discarded instead. -/
theorem unexpected_line_fatal_outside_skip :
    (∀ line rest lineNo cur acc,
      line ≠ "" →
      dropTag "@@PKG@@\t" line = none →
      dropTag "@@FILE@@\t" line = none →
      dropTag "@@CL@@\t" line = none →
      Tab.loadGo (line :: rest) lineNo cur false acc =
        .error (.unexpectedLineFormat (lineNo + 1) (String.mk (line.data.take 80)))) ∧
    (∀ line rest lineNo cur acc,
      line ≠ "" →
      dropTag "@@PKG@@\t" line = none →
      Tab.loadGo (line :: rest) lineNo cur true acc =
        Tab.loadGo rest (lineNo + 1) cur true acc) ∧
    (∀ rest lineNo cur skip acc,
      Tab.loadGo ("" :: rest) lineNo cur skip acc =
        Tab.loadGo rest (lineNo + 1) cur skip acc) := by
  refine ⟨?_, ?_, ?_⟩
  · intro line rest lineNo cur acc h0 hp hf hc
    simp [Tab.loadGo, if_neg h0, hp, hf, hc]
  · intro line rest lineNo cur acc h0 hp
    simp [Tab.loadGo, if_neg h0, hp]
  · intro rest lineNo cur skip acc
    simp [Tab.loadGo]

/-- Witness for the amended C3 theorem: the garbage line "zzz" outside the
skip state fails the decode with the unexpected-line-format error. -/
theorem unexpected_line_fatal_outside_skip_witness :
    Tab.loadGo ["zzz"] 0 none false [] = .error (.unexpectedLineFormat 1 "zzz") :=
  unexpected_line_fatal_outside_skip.1 "zzz" [] 0 none []
    (by decide) (by decide) (by decide) (by decide)

set_option maxHeartbeats 1000000 in
/-- The registry's success set is exactly the fixed code list. -/
theorem tryFrom_isSome_iff (c : Nat) : (DigestAlgorithm.tryFrom c).isSome = true ↔
    c ∈ ([1, 2, 3, 5, 6, 7, 8, 9, 10, 11, 12, 14] : List Nat) := by
  simp only [DigestAlgorithm.tryFrom, DigestAlgorithm.toCode, List.mem_cons,
    List.not_mem_nil, or_false]
  split_ifs <;> simp_all

set_option maxHeartbeats 1000000 in
/-- A successful registry lookup returns the variant with that code. -/
theorem tryFrom_toCode (c : Nat) (a : DigestAlgorithm)
    (h : DigestAlgorithm.tryFrom c = some a) : a.toCode = c := by
  simp only [DigestAlgorithm.tryFrom] at h
  split_ifs at h <;>
    (injection h with h2; subst h2; simp_all [DigestAlgorithm.toCode])

set_option maxHeartbeats 1000000 in
/-- A declared code outside the registry fails normalization with the
unknown-algorithm error carrying the package name and the code. -/
theorem tryFromRaw_unknown_algo (raw : RawPackage) (v : Nat)
    (hv : raw.filedigestalgo = some v) (htf : DigestAlgorithm.tryFrom v = none) :
    Package.tryFromRaw raw = .error (.unknownDigestAlgorithm raw.name v) := by
  unfold Package.tryFromRaw resolveDigestAlgo
  rw [hv]
  simp only [htf]

/-- Claim C8: resolving a digest-algorithm code succeeds exactly for the
fixed set of codes and returns the variant with that numeric value; a
package declaring any other code fails normalization with the
unknown-algorithm error carrying the package name and the code. -/
theorem digest_algorithm_registry_closed :
    (∀ c : Nat, (DigestAlgorithm.tryFrom c).isSome = true ↔
      c ∈ ([1, 2, 3, 5, 6, 7, 8, 9, 10, 11, 12, 14] : List Nat)) ∧
    (∀ (c : Nat) (a : DigestAlgorithm),
      DigestAlgorithm.tryFrom c = some a → a.toCode = c) ∧
    (∀ (raw : RawPackage) (v : Nat),
      raw.filedigestalgo = some v →
      DigestAlgorithm.tryFrom v = none →
      Package.tryFromRaw raw = .error (.unknownDigestAlgorithm raw.name v)) :=
  ⟨tryFrom_isSome_iff, tryFrom_toCode, tryFromRaw_unknown_algo⟩

/-- Witness for C8: the out-of-registry code 13 makes normalization of
`c8Raw` fail with the unknown-algorithm error naming the package and 13. -/
theorem digest_algorithm_registry_closed_witness :
    Package.tryFromRaw c8Raw = .error (.unknownDigestAlgorithm "c8pkg" 13) :=
  digest_algorithm_registry_closed.2.2 c8Raw 13 rfl (by decide)

/-- Claim C10: a package-header line is subject to the exact-11-field count
check before the gpg-pubkey skip decision — a gpg-pubkey header with any
other field count fails the decode with the field-count error; and on a
well-formed gpg-pubkey header the previously open package is finalized
into the map before the skip state is entered. -/
theorem gpg_header_field_count_checked :
    (∀ line rs rest lineNo cur skip acc,
      dropTag "@@PKG@@\t" line = some rs →
      (splitChar '\t' rs).length ≠ 11 →
      (splitChar '\t' rs).getD 0 "" = "gpg-pubkey" →
      Tab.loadGo (line :: rest) lineNo cur skip acc =
        .error (.pkgFieldCount (lineNo + 1) (splitChar '\t' rs).length)) ∧
    (∀ line rs rest lineNo pkg skip acc,
      dropTag "@@PKG@@\t" line = some rs →
      (splitChar '\t' rs).length = 11 →
      (splitChar '\t' rs).getD 0 "" = "gpg-pubkey" →
      Tab.loadGo (line :: rest) lineNo (some pkg) skip acc =
        Tab.loadGo rest (lineNo + 1) none true (insertAssoc acc pkg.name pkg)) := by
  constructor
  · intro line rs rest lineNo cur skip acc hp hlen hgpg
    have h0 : line ≠ "" := by
      intro h; subst h
      exact Option.noConfusion ((show dropTag "@@PKG@@\t" "" = none by decide) ▸ hp)
    simp only [Tab.loadGo, if_neg h0, hp]
    rw [if_pos hlen]
  · intro line rs rest lineNo pkg skip acc hp hlen hgpg
    have h0 : line ≠ "" := by
      intro h; subst h
      exact Option.noConfusion ((show dropTag "@@PKG@@\t" "" = none by decide) ▸ hp)
    simp only [Tab.loadGo, if_neg h0, hp, hlen, hgpg, Tab.finalize]
    rw [if_neg (show ¬((11 : Nat) ≠ 11) from fun h => h rfl), if_pos trivial]

/-- Witness for C10: a gpg-pubkey header with only 2 fields fails with the
field-count error even though its name field is "gpg-pubkey". -/
theorem gpg_header_field_count_checked_witness :
    Tab.loadGo ["@@PKG@@\tgpg-pubkey\tx"] 0 none false [] =
      .error (.pkgFieldCount 1 2) :=
  gpg_header_field_count_checked.1 "@@PKG@@\tgpg-pubkey\tx" "gpg-pubkey\tx" [] 0 none false []
    (by decide) (by decide) (by decide)

set_option maxHeartbeats 1000000 in
/-- Declared-algorithm resolution succeeds with `some` exactly when the raw
record declared an algorithm. -/
theorem resolveDigestAlgo_isSome (raw : RawPackage) (algo : Option DigestAlgorithm)
    (h : resolveDigestAlgo raw = .ok algo) :
    algo.isSome = true ↔ raw.filedigestalgo.isSome = true := by
  unfold resolveDigestAlgo at h
  repeat' split at h
  all_goals first
    | exact Except.noConfusion h
    | (injection h with h'; subst h'; simp_all)

set_option maxHeartbeats 1000000 in
/-- The per-file digest policy of the normalizer: a digest is materialized
iff the raw digest string is non-empty and an algorithm was declared, and
it carries the declared algorithm together with the raw hex string. -/
theorem normFile_digest (raw : RawPackage) (algo : Option DigestAlgorithm)
    (i : Nat) (path : String) (info : FileInfo)
    (h : normFile raw algo i = .ok (path, info)) :
    (info.digest.isSome = true ↔ (raw.filedigests.getD i "" ≠ "" ∧ algo.isSome = true)) ∧
    (∀ fd, info.digest = some fd → algo = some fd.algorithm ∧ fd.hex = raw.filedigests.getD i "") := by
  unfold normFile at h
  repeat' split at h
  all_goals try exact Except.noConfusion h
  all_goals
    (injection h with h'
     injection h' with hp hi
     subst hp
     subst hi
     cases algo <;> simp_all)

set_option maxHeartbeats 1000000 in
/-- A missing directory-index entry is fatal with the exact error naming
the package and the file index. -/
theorem normFile_missing_dirindex (raw : RawPackage) (algo : Option DigestAlgorithm)
    (i : Nat) (h : raw.dirindexes.get? i = none) :
    normFile raw algo i = .error (.missingDirindex raw.name i) := by
  unfold normFile
  simp only [h]

set_option maxHeartbeats 1000000 in
/-- An out-of-range directory index is fatal with the exact error naming
the package, the index value and the file index. -/
theorem normFile_dirindex_oob (raw : RawPackage) (algo : Option DigestAlgorithm)
    (i di : Nat) (h1 : raw.dirindexes.get? i = some di)
    (h2 : raw.dirnames.get? di = none) :
    normFile raw algo i = .error (.dirindexOutOfBounds raw.name di i) := by
  unfold normFile
  simp only [h1, h2]

set_option maxHeartbeats 1000000 in
/-- A successfully normalized file's path is the directory-table entry at
its directory index joined with its basename. -/
theorem normFile_path (raw : RawPackage) (algo : Option DigestAlgorithm)
    (i : Nat) (path : String) (info : FileInfo)
    (h : normFile raw algo i = .ok (path, info)) :
    ∃ di dir, raw.dirindexes.get? i = some di ∧ raw.dirnames.get? di = some dir ∧
      path = pathJoin dir (raw.basenames.getD i "") := by
  unfold normFile at h
  repeat' split at h
  all_goals try exact Except.noConfusion h
  all_goals
    (injection h with h'
     injection h' with hp hi
     subst hp
     exact ⟨_, _, by assumption, by assumption, rfl⟩)

set_option maxHeartbeats 1000000 in
/-- Success of the file-building fold implies every index normalized. -/
theorem buildFilesAux_ok_all (raw : RawPackage) (algo : Option DigestAlgorithm) :
    ∀ (is : List Nat) (fs out : Files), buildFilesAux raw algo is fs = .ok out →
      ∀ i ∈ is, ∃ r, normFile raw algo i = .ok r := by
  intro is
  induction is with
  | nil => intro fs out h i hi; exact absurd hi (List.not_mem_nil i)
  | cons j js ih =>
    intro fs out h i hi
    unfold buildFilesAux at h
    split at h
    · exact Except.noConfusion h
    · rcases List.mem_cons.1 hi with rfl | hi'
      · exact ⟨_, by assumption⟩
      · exact ih _ _ h i hi'

set_option maxHeartbeats 1000000 in
/-- A successful normalization implies every file index of the record was
normalized without error (so a bad index fails the whole conversion). -/
theorem tryFromRaw_files_ok (raw : RawPackage) (pkg : Package)
    (h : Package.tryFromRaw raw = .ok pkg) :
    ∃ algo, resolveDigestAlgo raw = .ok algo ∧
      ∀ i ∈ List.range raw.basenames.length, ∃ r, normFile raw algo i = .ok r := by
  unfold Package.tryFromRaw at h
  split at h
  · exact Except.noConfusion h
  · split at h
    · exact Except.noConfusion h
    · exact ⟨_, by assumption, buildFilesAux_ok_all _ _ _ _ _ (by assumption)⟩

/-- Claim C4: a normalized file carries a digest iff its raw digest string
is non-empty and the package declared a digest algorithm (declared-ness
being what `resolveDigestAlgo` preserves), and a materialized digest
carries the declared algorithm and the raw hex string; a non-empty digest
string with no declared algorithm yields an absent digest, not an error. -/
theorem digest_materialization_policy :
    (∀ (raw : RawPackage) (algo : Option DigestAlgorithm),
      resolveDigestAlgo raw = .ok algo →
      (algo.isSome = true ↔ raw.filedigestalgo.isSome = true)) ∧
    (∀ (raw : RawPackage) (algo : Option DigestAlgorithm) (i : Nat)
      (path : String) (info : FileInfo),
      normFile raw algo i = .ok (path, info) →
      (info.digest.isSome = true ↔
        (raw.filedigests.getD i "" ≠ "" ∧ algo.isSome = true)) ∧
      (∀ fd, info.digest = some fd →
        algo = some fd.algorithm ∧ fd.hex = raw.filedigests.getD i "")) :=
  ⟨resolveDigestAlgo_isSome, normFile_digest⟩

/-- Witness for C4: `c4Raw` declares SHA-256 and supplies the digest string
"aabb" for file 0, and the normalizer materializes a digest for it. -/
theorem digest_materialization_policy_witness :
    c4Info.digest.isSome = true ↔
      (c4Raw.filedigests.getD 0 "" ≠ "" ∧
        (some DigestAlgorithm.Sha256 : Option DigestAlgorithm).isSome = true) :=
  (digest_materialization_policy.2 c4Raw (some .Sha256) 0 "/a/f" c4Info (by decide)).1

/-- Claim C5: in the JSON path's normalization, a missing directory-index
entry or an out-of-range directory index at file `i` is fatal with the
error naming the package and the file index; otherwise the file's path is
the directory-table entry joined with the basename; and a successful
conversion implies no file index failed (so such a failure fails the
whole conversion). -/
theorem dirindex_validation_fatal :
    (∀ (raw : RawPackage) (algo : Option DigestAlgorithm) (i : Nat),
      raw.dirindexes.get? i = none →
      normFile raw algo i = .error (.missingDirindex raw.name i)) ∧
    (∀ (raw : RawPackage) (algo : Option DigestAlgorithm) (i di : Nat),
      raw.dirindexes.get? i = some di →
      raw.dirnames.get? di = none →
      normFile raw algo i = .error (.dirindexOutOfBounds raw.name di i)) ∧
    (∀ (raw : RawPackage) (algo : Option DigestAlgorithm) (i : Nat)
      (path : String) (info : FileInfo),
      normFile raw algo i = .ok (path, info) →
      ∃ di dir, raw.dirindexes.get? i = some di ∧ raw.dirnames.get? di = some dir ∧
        path = pathJoin dir (raw.basenames.getD i "")) ∧
    (∀ (raw : RawPackage) (pkg : Package),
      Package.tryFromRaw raw = .ok pkg →
      ∃ algo, resolveDigestAlgo raw = .ok algo ∧
        ∀ i ∈ List.range raw.basenames.length, ∃ r, normFile raw algo i = .ok r) :=
  ⟨normFile_missing_dirindex, normFile_dirindex_oob, normFile_path, tryFromRaw_files_ok⟩

/-- Witness for C5: `c5Raw` has an empty `dirindexes` table, so file 0
fails with the missing-dirindex error naming the package and index 0. -/
theorem dirindex_validation_fatal_witness :
    normFile c5Raw none 0 = .error (.missingDirindex "c5pkg" 0) :=
  dirindex_validation_fatal.1 c5Raw none 0 rfl

set_option maxHeartbeats 1000000 in
/-- The file loop reads each per-file array only below the basename count. -/
theorem normFile_truncFiles (raw : RawPackage) (algo : Option DigestAlgorithm)
    (i : Nat) (hi : i < raw.basenames.length) :
    normFile (truncFiles raw) algo i = normFile raw algo i := by
  unfold normFile truncFiles
  simp only [List.get?_take hi]

set_option maxHeartbeats 1000000 in
/-- The file-building fold is unchanged by truncating the per-file arrays
to the basename count, for index lists below that count. -/
theorem buildFilesAux_truncFiles (raw : RawPackage) (algo : Option DigestAlgorithm) :
    ∀ (is : List Nat) (fs : Files), (∀ i ∈ is, i < raw.basenames.length) →
      buildFilesAux (truncFiles raw) algo is fs = buildFilesAux raw algo is fs := by
  intro is
  induction is with
  | nil => intro fs _; rfl
  | cons j js ih =>
    intro fs hj
    unfold buildFilesAux
    rw [normFile_truncFiles raw algo j (hj j (List.mem_cons_self _ _))]
    cases normFile raw algo j with
    | error e => rfl
    | ok r =>
      obtain ⟨path, info⟩ := r
      exact ih _ fun i hi => hj i (List.mem_cons_of_mem _ hi)

set_option maxHeartbeats 1000000 in
/-- Claim C9: normalization depends on the per-file attribute arrays only
up to the basename count — truncating any surplus entries of `dirindexes`,
`filesizes`, `filemodes`, `filemtimes`, `filedigests`, `fileflags`,
`fileusername`, `filegroupname` and `filelinktos` leaves the result of the
conversion unchanged, so surplus entries appear in no `FileInfo` and cause
no error. -/
theorem surplus_file_attributes_ignored (raw : RawPackage) :
    Package.tryFromRaw (truncFiles raw) = Package.tryFromRaw raw := by
  have h1 : resolveDigestAlgo (truncFiles raw) = resolveDigestAlgo raw := rfl
  cases hr : resolveDigestAlgo raw with
  | error e => simp only [Package.tryFromRaw, h1, hr]
  | ok algo =>
    simp only [Package.tryFromRaw, h1, hr]
    rw [show (truncFiles raw).basenames = raw.basenames from rfl,
        buildFilesAux_truncFiles raw algo (List.range raw.basenames.length) []
          (fun i hi => List.mem_range.1 hi)]
    cases hb : buildFilesAux raw algo (List.range raw.basenames.length) [] with
    | error e => rfl
    | ok files =>
      rw [show (truncFiles raw).arch = raw.arch from rfl]
      cases ha : raw.arch with
      | none => rfl
      | some arch => rfl

set_option maxHeartbeats 2000000 in
/-- The JSON-path stream loop never lets a gpg-pubkey entry through. -/
theorem rawLoadGo_no_gpg :
    ∀ (raws : List RawPackage) (acc m : Packages),
      rawLoadGo raws acc = .ok m →
      (∀ e ∈ acc, e.1 ≠ "gpg-pubkey" ∧ e.2.name ≠ "gpg-pubkey") →
      ∀ e ∈ m, e.1 ≠ "gpg-pubkey" ∧ e.2.name ≠ "gpg-pubkey" := by
  intro raws
  induction raws with
  | nil =>
    intro acc m h hacc
    injection h with h'
    subst h'
    exact hacc
  | cons raw rest ih =>
    intro acc m h hacc
    unfold rawLoadGo at h
    split at h
    · exact ih _ _ h hacc
    · split at h
      · exact Except.noConfusion h
      · rename_i hname _ pkg hpkg
        refine ih _ _ h ?_
        intro e he
        rcases mem_insertAssoc _ _ _ _ he with rfl | hmem
        · have : pkg.name = raw.name := tryFromRaw_name raw pkg hpkg
          exact ⟨by simpa [this] using hname, by simpa [this] using hname⟩
        · exact hacc e hmem

/-- Finalizing the open package preserves the no-gpg-pubkey invariant. -/
theorem finalize_no_gpg (cur : Option Tab.Package) (acc : Tab.Packages)
    (hacc : ∀ e ∈ acc, e.1 ≠ "gpg-pubkey" ∧ e.2.name ≠ "gpg-pubkey")
    (hcur : ∀ p, cur = some p → p.name ≠ "gpg-pubkey") :
    ∀ e ∈ Tab.finalize cur acc, e.1 ≠ "gpg-pubkey" ∧ e.2.name ≠ "gpg-pubkey" := by
  cases cur with
  | none => exact hacc
  | some p =>
    intro e he
    rcases mem_insertAssoc _ _ _ _ he with rfl | hmem
    · exact ⟨hcur p rfl, hcur p rfl⟩
    · exact hacc e hmem

set_option maxHeartbeats 2000000 in
/-- The tab-path line loop never lets a gpg-pubkey entry through, from any
state whose accumulator and open package already satisfy the invariant. -/
theorem loadGo_no_gpg :
    ∀ (lines : List String) (lineNo : Nat) (cur : Option Tab.Package) (skip : Bool)
      (acc m : Tab.Packages),
      Tab.loadGo lines lineNo cur skip acc = .ok m →
      (∀ e ∈ acc, e.1 ≠ "gpg-pubkey" ∧ e.2.name ≠ "gpg-pubkey") →
      (∀ p, cur = some p → p.name ≠ "gpg-pubkey") →
      ∀ e ∈ m, e.1 ≠ "gpg-pubkey" ∧ e.2.name ≠ "gpg-pubkey" := by
  intro lines
  induction lines with
  | nil =>
    intro lineNo cur skip acc m h hacc hcur
    injection h with h'
    subst h'
    exact finalize_no_gpg cur acc hacc hcur
  | cons line rest ih =>
    intro lineNo cur skip acc m h hacc hcur
    cases cur with
    | none =>
      simp only [Tab.loadGo] at h
      repeat' split at h
      all_goals first
        | exact Except.noConfusion h
        | exact ih _ _ _ _ _ h hacc hcur
        | exact ih _ _ _ _ _ h (finalize_no_gpg none acc hacc hcur)
            (fun p hp => Option.noConfusion hp)
        | (refine ih _ _ _ _ _ h (finalize_no_gpg none acc hacc hcur) ?_
           intro p hp
           injection hp with hp'
           subst hp'
           rw [parsePkgHeader_name _ _ (by assumption)]
           assumption)
    | some pkg =>
      have hname : pkg.name ≠ "gpg-pubkey" := hcur pkg rfl
      simp only [Tab.loadGo] at h
      repeat' split at h
      all_goals first
        | exact Except.noConfusion h
        | exact ih _ _ _ _ _ h hacc hcur
        | exact ih _ _ _ _ _ h (finalize_no_gpg (some pkg) acc hacc hcur)
            (fun p hp => Option.noConfusion hp)
        | (refine ih _ _ _ _ _ h (finalize_no_gpg (some pkg) acc hacc hcur) ?_
           intro p hp
           injection hp with hp'
           subst hp'
           rw [parsePkgHeader_name _ _ (by assumption)]
           assumption)
        | (refine ih _ _ _ _ _ h hacc ?_
           intro p hp
           injection hp with hp'
           subst hp'
           exact hname)

/-- Claim C1: under both decoders, a successful decode returns a map with
no entry named "gpg-pubkey" — no key and no package name equals it; such
records are dropped rather than causing an error. -/
theorem no_gpg_pubkey_in_results :
    (∀ (raws : List RawPackage) (m : Packages), rawLoad raws = .ok m →
      findAssoc m "gpg-pubkey" = none ∧
      (m.all fun e => e.2.name != "gpg-pubkey") = true) ∧
    (∀ (lines : List String) (m : Tab.Packages), Tab.loadLines lines = .ok m →
      findAssoc m "gpg-pubkey" = none ∧
      (m.all fun e => e.2.name != "gpg-pubkey") = true) := by
  constructor
  · intro raws m h
    have hmem := rawLoadGo_no_gpg raws [] m h (fun e he => absurd he (List.not_mem_nil e))
    refine ⟨findAssoc_eq_none m _ fun e he => (hmem e he).1, ?_⟩
    rw [List.all_eq_true]
    intro e he
    simpa using (hmem e he).2
  · intro lines m h
    have hmem := loadGo_no_gpg lines 0 none false [] m h
      (fun e he => absurd he (List.not_mem_nil e)) (fun p hp => Option.noConfusion hp)
    refine ⟨findAssoc_eq_none m _ fun e he => (hmem e he).1, ?_⟩
    rw [List.all_eq_true]
    intro e he
    simpa using (hmem e he).2

/-- Witness for C1: a gpg-pubkey record (JSON, lacking arch) and a
gpg-pubkey header followed by a file row (tab stream) both decode
successfully to the empty map. -/
theorem no_gpg_pubkey_in_results_witness :
    (findAssoc ([] : Packages) "gpg-pubkey" = none ∧
      (List.all ([] : Packages) fun e => e.2.name != "gpg-pubkey") = true) ∧
    (findAssoc ([] : Tab.Packages) "gpg-pubkey" = none ∧
      (List.all ([] : Tab.Packages) fun e => e.2.name != "gpg-pubkey") = true) :=
  ⟨no_gpg_pubkey_in_results.1 [c1GpgRaw] [] (by decide),
   no_gpg_pubkey_in_results.2 c1GpgLines [] (by decide)⟩

set_option maxHeartbeats 2000000 in
/-- Claim C7: if the decoder reaches the end of the stream without error
while a package is open and no further package-header line occurs, the
open package is finalized and present in the returned map under its name. -/
theorem trailing_package_finalized :
    ∀ (lines : List String) (lineNo : Nat) (pkg : Tab.Package) (skip : Bool)
      (acc m : Tab.Packages),
      Tab.loadGo lines lineNo (some pkg) skip acc = .ok m →
      (∀ l ∈ lines, dropTag "@@PKG@@\t" l = none) →
      (findAssoc m pkg.name).isSome = true := by
  intro lines
  induction lines with
  | nil =>
    intro lineNo pkg skip acc m h hnl
    injection h with h'
    subst h'
    simp [Tab.finalize, findAssoc_insertAssoc_self]
  | cons line rest ih =>
    intro lineNo pkg skip acc m h hnl
    have hline : dropTag "@@PKG@@\t" line = none := hnl line (List.mem_cons_self _ _)
    have hrest : ∀ l ∈ rest, dropTag "@@PKG@@\t" l = none :=
      fun l hl => hnl l (List.mem_cons_of_mem _ hl)
    simp only [Tab.loadGo] at h
    repeat' split at h
    all_goals first
      | exact Except.noConfusion h
      | (have hx := ih _ _ _ _ _ h hrest; exact hx)
      | (exfalso; simp_all)

/-- Witness for C7: a package still open at end of stream is present in
the final map under its name. -/
theorem trailing_package_finalized_witness :
    (findAssoc [("trailing", c7Pkg)] "trailing").isSome = true :=
  trailing_package_finalized [] 0 c7Pkg false [] [("trailing", c7Pkg)] (by decide)
    (fun l hl => absurd hl (List.not_mem_nil l))
